import Mathlib

/-!
Verification development for the `googleAdPlacementPlugin` adapter
(`src/mod.js` and the earlier revision of the same module).

The JavaScript source is shallowly embedded: pure fragments become Lean
functions; the stateful rewarded-ad reconciler loop becomes an explicit
labeled transition system whose atomic steps are the synchronous blocks
between suspension points of the cooperative (single-threaded) scheduler.
All side effects (host context calls, DOM mutation, vendor-queue pushes,
vendor show-function invocations) are recorded as ordered event lists.
-/

namespace GoogleAdPlacement

/-- The `AdBreakType` enum from the source typedef. -/
inductive AdBreakType
  | preroll
  | start
  | pause
  | next
  | browse
  | reward
deriving DecidableEq

/-- The `AdBreakStatus` enum from the source typedef. -/
inductive AdBreakStatus
  | notReady
  | timeout
  | error
  | noAdPreloaded
  | frequencyCapped
  | ignored
  | other
  | dismissed
  | viewed
deriving DecidableEq

/-- The `breakFormat` field values from the `PlacementInfo` typedef. -/
inductive BreakFormat
  | interstitial
  | reward
deriving DecidableEq

/-- `PlacementInfo`, the result of one ad-break attempt. -/
structure PlacementInfo where
  breakType : AdBreakType
  breakName : String
  breakFormat : BreakFormat
  breakStatus : AdBreakStatus
deriving DecidableEq

/-- The normalized `ShowFullScreenAdResult` shape: `didShowAd` plus an
`errorReason` that is a string or `null` (modelled as `Option String`). -/
structure ShowFullScreenAdResult where
  didShowAd : Bool
  errorReason : Option String
deriving DecidableEq

/-- Embedding of `placementInfoToAdLadResult` (`src/mod.js` lines 73 to 97):
the if-chain over `placementInfo.breakStatus`, starting from
`didShowAd = false`, `errorReason = null`. -/
def placementInfoToAdLadResult (placementInfo : PlacementInfo) : ShowFullScreenAdResult :=
  let status := placementInfo.breakStatus
  if status = AdBreakStatus.viewed then
    { didShowAd := true, errorReason := none }
  else if status = AdBreakStatus.frequencyCapped then
    { didShowAd := false, errorReason := some "time-constraint" }
  else if status = AdBreakStatus.dismissed then
    { didShowAd := false, errorReason := some "user-dismissed" }
  else if status = AdBreakStatus.notReady ∨ status = AdBreakStatus.timeout ∨
      status = AdBreakStatus.noAdPreloaded then
    { didShowAd := false, errorReason := some "no-ad-available" }
  else
    { didShowAd := false, errorReason := some "unknown" }

/-- Embedding of the inline translation at the end of `showAdHelper` in the
earlier revision of the module (lines 80 to 103 there): textually the same
if-chain as `placementInfoToAdLadResult`, applied to the awaited
`googleResult`. -/
def showAdHelperResult (googleResult : PlacementInfo) : ShowFullScreenAdResult :=
  let status := googleResult.breakStatus
  if status = AdBreakStatus.viewed then
    { didShowAd := true, errorReason := none }
  else if status = AdBreakStatus.frequencyCapped then
    { didShowAd := false, errorReason := some "time-constraint" }
  else if status = AdBreakStatus.dismissed then
    { didShowAd := false, errorReason := some "user-dismissed" }
  else if status = AdBreakStatus.notReady ∨ status = AdBreakStatus.timeout ∨
      status = AdBreakStatus.noAdPreloaded then
    { didShowAd := false, errorReason := some "no-ad-available" }
  else
    { didShowAd := false, errorReason := some "unknown" }

/-- The mapping table of spec section 4.2, written claim-side for the
refinement comparison with `placementInfoToAdLadResult`. -/
def specResultTable : AdBreakStatus → ShowFullScreenAdResult
  | AdBreakStatus.viewed => { didShowAd := true, errorReason := none }
  | AdBreakStatus.frequencyCapped => { didShowAd := false, errorReason := some "time-constraint" }
  | AdBreakStatus.dismissed => { didShowAd := false, errorReason := some "user-dismissed" }
  | AdBreakStatus.notReady => { didShowAd := false, errorReason := some "no-ad-available" }
  | AdBreakStatus.timeout => { didShowAd := false, errorReason := some "no-ad-available" }
  | AdBreakStatus.noAdPreloaded => { didShowAd := false, errorReason := some "no-ad-available" }
  | _ => { didShowAd := false, errorReason := some "unknown" }

/-- The `AdBreakOptions` object pushed by `adBreak`. The callback fields
(`beforeAd`, `afterAd`, `beforeReward`, `adDismissed`, `adViewed`,
`adBreakDone`) are closures whose behavior is modelled by the transition
system below; for the queue they are inert payload. -/
structure AdBreakOptions where
  type : AdBreakType
  name : Option String
deriving DecidableEq

/-- The `AdConfigOptions` object pushed by `adConfig`. -/
structure AdConfigOptions where
  preloadAdBreaks : Option String
  sound : Option String
deriving DecidableEq

/-- An element of the `window.adsbygoogle` vendor command queue. -/
inductive VendorQueueItem
  | adBreakItem (options : AdBreakOptions)
  | adConfigItem (options : AdConfigOptions)
deriving DecidableEq

/-- Embedding of `window.adsbygoogle = window.adsbygoogle || []`
(`src/mod.js` line 11): the queue is replaced by a fresh empty array only
when it is not already set. -/
def initAdsbygoogle (adsbygoogle : Option (List VendorQueueItem)) : List VendorQueueItem :=
  match adsbygoogle with
  | some q => q
  | none => []

/-- Embedding of `adBreak` (`src/mod.js` lines 44 to 46):
`window.adsbygoogle.push(options)`. -/
def adBreak (options : AdBreakOptions) (adsbygoogle : List VendorQueueItem) :
    List VendorQueueItem :=
  adsbygoogle ++ [VendorQueueItem.adBreakItem options]

/-- Embedding of `adConfig` (`src/mod.js` lines 50 to 52):
`window.adsbygoogle.push(options)`. -/
def adConfig (options : AdConfigOptions) (adsbygoogle : List VendorQueueItem) :
    List VendorQueueItem :=
  adsbygoogle ++ [VendorQueueItem.adConfigItem options]

/-- The script element built inside `initialize` (`src/mod.js` lines
185 to 195), with each relevant attribute recorded. The `if` guards of the
source are reflected in `buildScriptTag`. -/
structure ScriptTag where
  scriptAsync : Bool
  adClient : String
  adFrequencyHint : Option String
  adbreakTest : Bool
  crossOrigin : String
  src : String
deriving DecidableEq

/-- Builds the script tag exactly as `initialize` does: `dataset.adClient`
is the publisher id, `dataset.adFrequencyHint` is set only when the hint
option is truthy (present and non-empty), `dataset.adbreakTest = "on"` only
when `ctx.useTestAds`, and the src embeds the publisher id. -/
def buildScriptTag (publisherId : String) (adFrequencyHint : Option String)
    (useTestAds : Bool) : ScriptTag :=
  { scriptAsync := true
    adClient := publisherId
    adFrequencyHint :=
      match adFrequencyHint with
      | some hint => if hint = "" then none else some hint
      | none => none
    adbreakTest := useTestAds
    crossOrigin := "anonymous"
    src := "https://pagead2.googlesyndication.com/pagead/js/adsbygoogle.js?client=" ++ publisherId }

/-- Observable side effects of the plugin toward the host context, the DOM
and the vendor queue, in program order. -/
inductive HostEvent
  | setCanShowRewardedAd (value : Bool)
  | setNeedsPause (value : Bool)
  | setNeedsMute (value : Bool)
  | appendScriptToHead (tag : ScriptTag)
deriving DecidableEq

/-- The per-instance mutable flags read by the guards: `initializeCalled`
(`src/mod.js` line 10) and whether `initializeContext` is non-null
(line 55). -/
structure PluginState where
  initializeCalled : Bool
  initializeContextSet : Bool
deriving DecidableEq

/-- The plugin state as constructed by `googleAdPlacementPlugin`: not yet
initialized, no context. -/
def freshPluginState : PluginState :=
  { initializeCalled := false, initializeContextSet := false }

/-- Embedding of the synchronous prefix of `initialize` (`src/mod.js`
lines 176 to 206), i.e. everything up to the first suspension point
(`await promise` for the script load). A throw is returned as
`some message`; in that case the state is returned unchanged and the event
list is empty, because the guard runs before any mutation. On the success
path the events are, in order: `ctx.setCanShowRewardedAd(false)`, then
`document.head.appendChild(scriptTag)`. -/
def initializeSync (publisherId : String) (adFrequencyHint : Option String)
    (useTestAds : Bool) (s : PluginState) :
    Option String × PluginState × List HostEvent :=
  if s.initializeCalled then
    (some "Google Ad Placement plugin is being initialized more than once", s, [])
  else
    (none,
      { initializeCalled := true, initializeContextSet := true },
      [HostEvent.setCanShowRewardedAd false,
       HostEvent.appendScriptToHead (buildScriptTag publisherId adFrequencyHint useTestAds)])

/-- Embedding of the synchronous prefix of `initialize` in the earlier
revision of the module (lines 108 to 134 there): same idempotency guard,
but no `setCanShowRewardedAd` call and no test-ads attribute. -/
def initializeSyncEarly (publisherId : String) (adFrequencyHint : Option String)
    (s : PluginState) : Option String × PluginState × List HostEvent :=
  if s.initializeCalled then
    (some "Google Ad Placement plugin is being initialized more than once", s, [])
  else
    (none,
      { initializeCalled := true, initializeContextSet := true },
      [HostEvent.appendScriptToHead (buildScriptTag publisherId adFrequencyHint false)])

/-- Embedding of `beforeAfter.beforeAd` (`src/mod.js` lines 58 to 62):
throws "Plugin is not initialized" when `initializeContext` is null,
otherwise calls `setNeedsPause(true)` then `setNeedsMute(true)`. -/
def beforeAd (s : PluginState) : Option String × List HostEvent :=
  if s.initializeContextSet then
    (none, [HostEvent.setNeedsPause true, HostEvent.setNeedsMute true])
  else
    (some "Plugin is not initialized", [])

/-- Embedding of `beforeAfter.afterAd` (`src/mod.js` lines 63 to 67). -/
def afterAd (s : PluginState) : Option String × List HostEvent :=
  if s.initializeContextSet then
    (none, [HostEvent.setNeedsMute false, HostEvent.setNeedsPause false])
  else
    (some "Plugin is not initialized", [])

/-- Embedding of the guard at the top of `rewardedLoop` (`src/mod.js`
lines 121 to 123): throws "Plugin is not initialized" when
`initializeContext` is null. -/
def rewardedLoopEntry (s : PluginState) : Option String :=
  if s.initializeContextSet then none
  else some "Plugin is not initialized"

/-- `REWARDED_LOOP_RETRY_TIMEOUT` (`src/mod.js` line 119). -/
def REWARDED_LOOP_RETRY_TIMEOUT : Nat := 1000

/-- Where the reconciler loop currently is: `awaitingDone` between the
`adBreak` push and the firing of its `adBreakDone` hook, `cooling readyAt`
between the completion hook and the moment the next iteration may push
(this also covers the immediate case, with `readyAt` equal to the
completion time). -/
inductive LoopPhase
  | awaitingDone
  | cooling (readyAt : Nat)
deriving DecidableEq

/-- The observable state of the reconciler (`src/mod.js` lines 114 to 172)
together with the host-visible flag. `time` models `performance.now()` as
a natural number of milliseconds. `showRewardedAdFnSet` and
`resolveRewardedAdFnSet` record whether the respective module-level
variables are non-null. `canShowRewardedAd` is the value last passed to
`ctx.setCanShowRewardedAd`. `showAdCallCount` counts invocations of the
vendor-supplied `showAdFn` during the current Requesting attempt. -/
structure RewardedLoopState where
  time : Nat
  phase : LoopPhase
  lastCallTime : Nat
  showRewardedAdFnSet : Bool
  resolveRewardedAdFnSet : Bool
  canShowRewardedAd : Bool
  showAdCallCount : Nat
deriving DecidableEq

/-- Events emitted by loop and host steps, in program order.
`adBreakPushed t` records a `adBreak({type: "reward", ...})` push at time
`t`; `hostShowReturned r` records a `showRewardedAd` call returning `r` to
the host (either immediately on the soft path, or when its awaited promise
settles). -/
inductive LoopEvent
  | adBreakPushed (t : Nat)
  | setCanShowRewardedAd (value : Bool)
  | vendorShowAdCalled
  | pendingResolvedWith (p : PlacementInfo)
  | hostShowReturned (r : ShowFullScreenAdResult)
deriving DecidableEq

/-- One atomic step: a synchronous block between suspension points of the
cooperative scheduler. `tick` lets time pass; `iterate` is the top of the
`while` body (record `lastCallTime`, push the reward `adBreak`, suspend on
its promise); `vendorBeforeReward` is the vendor firing the `beforeReward`
hook (at most once per attempt, before the completion hook);
`vendorAdBreakDone p` is the vendor firing `adBreakDone(p)` together with
the loop continuation after `await promise` (lines 151 to 170), which runs
before any other queued host task; `hostShowRewardedAd` is a host call to
the plugin `showRewardedAd` method, up to its suspension point. -/
inductive LoopStep
  | tick (dt : Nat)
  | iterate
  | vendorBeforeReward
  | vendorAdBreakDone (p : PlacementInfo)
  | hostShowRewardedAd
deriving DecidableEq

/-- The step function. `none` means the step is not enabled in this state
(vendor hooks can only fire for an outstanding request; the loop body can
only push again once the cooldown timer has fired). -/
def applyStep (s : RewardedLoopState) : LoopStep → Option (RewardedLoopState × List LoopEvent)
  | LoopStep.tick dt => some ({ s with time := s.time + dt }, [])
  | LoopStep.iterate =>
    match s.phase with
    | LoopPhase.awaitingDone => none
    | LoopPhase.cooling readyAt =>
      if readyAt ≤ s.time then
        some ({ s with
                  phase := LoopPhase.awaitingDone
                  lastCallTime := s.time
                  showAdCallCount := 0 },
          [LoopEvent.adBreakPushed s.time])
      else none
  | LoopStep.vendorBeforeReward =>
    match s.phase with
    | LoopPhase.awaitingDone =>
      if s.showRewardedAdFnSet then none
      else
        some ({ s with showRewardedAdFnSet := true, canShowRewardedAd := true },
          [LoopEvent.setCanShowRewardedAd true])
    | LoopPhase.cooling _ => none
  | LoopStep.vendorAdBreakDone p =>
    match s.phase with
    | LoopPhase.awaitingDone =>
      let timePassed := s.time - s.lastCallTime
      let timeLeft := REWARDED_LOOP_RETRY_TIMEOUT - timePassed
      some ({ s with
                phase :=
                  if 0 < timeLeft then LoopPhase.cooling (s.time + timeLeft)
                  else LoopPhase.cooling s.time
                resolveRewardedAdFnSet := false
                showRewardedAdFnSet := false
                canShowRewardedAd := false },
        (if s.resolveRewardedAdFnSet then [LoopEvent.pendingResolvedWith p] else []) ++
          [LoopEvent.setCanShowRewardedAd false] ++
          (if s.resolveRewardedAdFnSet then
            [LoopEvent.hostShowReturned (placementInfoToAdLadResult p)]
          else []))
    | LoopPhase.cooling _ => none
  | LoopStep.hostShowRewardedAd =>
    if s.showRewardedAdFnSet then
      some ({ s with
                canShowRewardedAd := false
                showAdCallCount := s.showAdCallCount + 1
                resolveRewardedAdFnSet := true },
        [LoopEvent.setCanShowRewardedAd false, LoopEvent.vendorShowAdCalled])
    else
      some (s,
        [LoopEvent.hostShowReturned
          { didShowAd := false, errorReason := some "no-ad-available" }])

/-- The state right after `rewardedLoop()` is entered (and after
`initialize` has already called `ctx.setCanShowRewardedAd(false)`): both
module-level function variables are null, the flag is false, and the first
iteration may start at once. -/
def initialLoopState : RewardedLoopState :=
  { time := 0
    phase := LoopPhase.cooling 0
    lastCallTime := 0
    showRewardedAdFnSet := false
    resolveRewardedAdFnSet := false
    canShowRewardedAd := false
    showAdCallCount := 0 }

/-- Runs a list of steps, threading the state and concatenating the
emitted events; fails if any step is not enabled. -/
def runSteps (s : RewardedLoopState) : List LoopStep → Option (RewardedLoopState × List LoopEvent)
  | [] => some (s, [])
  | step :: rest =>
    match applyStep s step with
    | none => none
    | some (s1, evs1) =>
      match runSteps s1 rest with
      | none => none
      | some (s2, evs2) => some (s2, evs1 ++ evs2)

/-- A state is reachable when some interleaving of loop steps, vendor
callbacks and host calls leads to it from the start of the loop. -/
def ReachableLoop (s : RewardedLoopState) : Prop :=
  ∃ tr evs, runSteps initialLoopState tr = some (s, evs)

/-- The soft result returned by `showRewardedAd` when no trigger is
available (`src/mod.js` lines 231 to 236). -/
def softResult : ShowFullScreenAdResult :=
  { didShowAd := false, errorReason := some "no-ad-available" }

/-- The inductive invariant of the reconciler state: time is monotone with
respect to `lastCallTime`, the trigger variable is non-null exactly when
the flag is raised or a trigger invocation is awaiting its completion
hook, and both function variables can only be non-null while a request is
outstanding. -/
def LoopInv (s : RewardedLoopState) : Prop :=
  s.lastCallTime ≤ s.time ∧
  (s.showRewardedAdFnSet = true ↔
    (s.canShowRewardedAd = true ∨ s.resolveRewardedAdFnSet = true)) ∧
  (s.showRewardedAdFnSet = true → s.phase = LoopPhase.awaitingDone) ∧
  (s.resolveRewardedAdFnSet = true → s.phase = LoopPhase.awaitingDone)

instance (s : RewardedLoopState) : Decidable (LoopInv s) := by
  unfold LoopInv
  infer_instance

/-- A lower bound on the time of any future `adBreak` push from a given
state: while cooling, the pending `setTimeout` keeps the loop from pushing
before `readyAt`; in any case time only moves forward. -/
def minPushTime (s : RewardedLoopState) : Nat :=
  match s.phase with
  | LoopPhase.awaitingDone => s.time
  | LoopPhase.cooling readyAt => max s.time readyAt

theorem loopInv_step {s s' : RewardedLoopState} {e : LoopStep} {evs : List LoopEvent}
    (hInv : LoopInv s) (h : applyStep s e = some (s', evs)) : LoopInv s' := by
  obtain ⟨h1, h2, h3, h4⟩ := hInv
  cases e with
  | tick dt =>
    simp only [applyStep, Option.some.injEq, Prod.mk.injEq] at h
    obtain ⟨hs, -⟩ := h
    subst hs
    exact ⟨Nat.le_trans h1 (Nat.le_add_right _ _), h2, h3, h4⟩
  | iterate =>
    simp only [applyStep] at h
    split at h
    · cases h
    · split at h
      · simp only [Option.some.injEq, Prod.mk.injEq] at h
        obtain ⟨hs, -⟩ := h
        subst hs
        exact ⟨Nat.le_refl _, h2, fun _ => rfl, fun _ => rfl⟩
      · cases h
  | vendorBeforeReward =>
    simp only [applyStep] at h
    split at h
    · rename_i heq
      split at h
      · cases h
      · simp only [Option.some.injEq, Prod.mk.injEq] at h
        obtain ⟨hs, -⟩ := h
        subst hs
        exact ⟨h1, by simp, fun _ => heq, fun hr => h4 hr⟩
    · cases h
  | vendorAdBreakDone p =>
    simp only [applyStep] at h
    split at h
    · simp only [Option.some.injEq, Prod.mk.injEq] at h
      obtain ⟨hs, -⟩ := h
      subst hs
      refine ⟨h1, by simp, by simp, by simp⟩
    · cases h
  | hostShowRewardedAd =>
    simp only [applyStep] at h
    by_cases hf : s.showRewardedAdFnSet
    · rw [if_pos hf] at h
      simp only [Option.some.injEq, Prod.mk.injEq] at h
      obtain ⟨hs, -⟩ := h
      subst hs
      exact ⟨h1, by simp [hf], fun _ => h3 hf, fun _ => h3 hf⟩
    · rw [if_neg hf] at h
      simp only [Option.some.injEq, Prod.mk.injEq] at h
      obtain ⟨hs, -⟩ := h
      subst hs
      exact ⟨h1, h2, h3, h4⟩

theorem runSteps_inv {tr : List LoopStep} {s s' : RewardedLoopState} {evs : List LoopEvent}
    (hInv : LoopInv s) (h : runSteps s tr = some (s', evs)) : LoopInv s' := by
  induction tr generalizing s evs with
  | nil =>
    simp only [runSteps, Option.some.injEq, Prod.mk.injEq] at h
    obtain ⟨hs, -⟩ := h
    subst hs
    exact hInv
  | cons e rest ih =>
    simp only [runSteps] at h
    cases ha : applyStep s e with
    | none => rw [ha] at h; cases h
    | some p =>
      obtain ⟨s1, evs1⟩ := p
      rw [ha] at h
      dsimp only at h
      cases hr : runSteps s1 rest with
      | none => rw [hr] at h; cases h
      | some q =>
        obtain ⟨s2, evs2⟩ := q
        rw [hr] at h
        dsimp only at h
        simp only [Option.some.injEq, Prod.mk.injEq] at h
        obtain ⟨hs, -⟩ := h
        subst hs
        exact ih (loopInv_step hInv ha) hr

theorem reachableLoop_inv {s : RewardedLoopState} (h : ReachableLoop s) : LoopInv s := by
  obtain ⟨tr, evs, hrun⟩ := h
  exact runSteps_inv (by decide) hrun

/-- Concrete placement reported by the vendor for a watched rewarded ad. -/
def viewedPlacement : PlacementInfo :=
  { breakType := AdBreakType.reward
    breakName := "rewarded"
    breakFormat := BreakFormat.reward
    breakStatus := AdBreakStatus.viewed }

/-- The state reached from `initialLoopState` by iterate followed by the
before-reward hook: an offer is out. -/
def offeredState : RewardedLoopState :=
  { time := 0
    phase := LoopPhase.awaitingDone
    lastCallTime := 0
    showRewardedAdFnSet := true
    resolveRewardedAdFnSet := false
    canShowRewardedAd := true
    showAdCallCount := 0 }

/-- The state reached from `offeredState` by one `showRewardedAd` call:
the trigger has been invoked and its result is pending. -/
def invokedState : RewardedLoopState :=
  { time := 0
    phase := LoopPhase.awaitingDone
    lastCallTime := 0
    showRewardedAdFnSet := true
    resolveRewardedAdFnSet := true
    canShowRewardedAd := false
    showAdCallCount := 1 }

/-- Like `invokedState` but 300 ms into the attempt. -/
def pendingDoneState : RewardedLoopState :=
  { time := 300
    phase := LoopPhase.awaitingDone
    lastCallTime := 0
    showRewardedAdFnSet := true
    resolveRewardedAdFnSet := true
    canShowRewardedAd := false
    showAdCallCount := 1 }

/-- The state after the completion hook fires in `pendingDoneState`:
everything cleared, cooling until 1000 ms after the attempt started. -/
def pendingDoneStateAfter : RewardedLoopState :=
  { time := 300
    phase := LoopPhase.cooling 1000
    lastCallTime := 0
    showRewardedAdFnSet := false
    resolveRewardedAdFnSet := false
    canShowRewardedAd := false
    showAdCallCount := 1 }

/-- The events of the completion step from `pendingDoneState` on
`viewedPlacement`. -/
def viewedDoneEvents : List LoopEvent :=
  [LoopEvent.pendingResolvedWith viewedPlacement,
   LoopEvent.setCanShowRewardedAd false,
   LoopEvent.hostShowReturned { didShowAd := true, errorReason := none }]

/-- A Requesting state with no offer out, 300 ms into the attempt. -/
def bareRequestingState : RewardedLoopState :=
  { time := 300
    phase := LoopPhase.awaitingDone
    lastCallTime := 0
    showRewardedAdFnSet := false
    resolveRewardedAdFnSet := false
    canShowRewardedAd := false
    showAdCallCount := 0 }

/-- The state after the completion hook fires in `bareRequestingState`. -/
def bareRequestingStateAfter : RewardedLoopState :=
  { time := 300
    phase := LoopPhase.cooling 1000
    lastCallTime := 0
    showRewardedAdFnSet := false
    resolveRewardedAdFnSet := false
    canShowRewardedAd := false
    showAdCallCount := 0 }

/-- A Requesting state whose completion hook fires only 1500 ms after the
attempt started. -/
def lateDoneState : RewardedLoopState :=
  { time := 1500
    phase := LoopPhase.awaitingDone
    lastCallTime := 0
    showRewardedAdFnSet := false
    resolveRewardedAdFnSet := false
    canShowRewardedAd := false
    showAdCallCount := 0 }

/-- The state after the completion hook fires in `lateDoneState`: the
elapsed time exceeds the cooldown, so the loop is ready immediately. -/
def lateDoneStateAfter : RewardedLoopState :=
  { time := 1500
    phase := LoopPhase.cooling 1500
    lastCallTime := 0
    showRewardedAdFnSet := false
    resolveRewardedAdFnSet := false
    canShowRewardedAd := false
    showAdCallCount := 0 }

/-- The state after the cooldown from `bareRequestingStateAfter` expires
at 1300 ms and the loop pushes its next request. -/
def nextIterState : RewardedLoopState :=
  { time := 1300
    phase := LoopPhase.awaitingDone
    lastCallTime := 1300
    showRewardedAdFnSet := false
    resolveRewardedAdFnSet := false
    canShowRewardedAd := false
    showAdCallCount := 0 }

theorem applyStep_pushTime {s s' : RewardedLoopState} {e : LoopStep} {evs : List LoopEvent}
    (h : applyStep s e = some (s', evs)) :
    minPushTime s ≤ minPushTime s' ∧
      ∀ t, LoopEvent.adBreakPushed t ∈ evs → minPushTime s ≤ t := by
  cases e with
  | tick dt =>
    simp only [applyStep, Option.some.injEq, Prod.mk.injEq] at h
    obtain ⟨hs, hevs⟩ := h
    subst hs
    subst hevs
    refine ⟨?_, by simp⟩
    unfold minPushTime
    cases hp : s.phase with
    | awaitingDone => exact Nat.le_add_right _ _
    | cooling readyAt =>
      dsimp only
      omega
  | iterate =>
    simp only [applyStep] at h
    split at h
    · cases h
    · rename_i heq
      split at h
      · rename_i hr
        simp only [Option.some.injEq, Prod.mk.injEq] at h
        obtain ⟨hs, hevs⟩ := h
        subst hs
        subst hevs
        constructor
        · unfold minPushTime
          rw [heq]
          dsimp only
          exact max_le (Nat.le_refl _) hr
        · intro t ht
          simp only [List.mem_singleton, LoopEvent.adBreakPushed.injEq] at ht
          subst ht
          unfold minPushTime
          rw [heq]
          exact max_le (Nat.le_refl _) hr
      · cases h
  | vendorBeforeReward =>
    simp only [applyStep] at h
    split at h
    · rename_i heq
      split at h
      · cases h
      · simp only [Option.some.injEq, Prod.mk.injEq] at h
        obtain ⟨hs, hevs⟩ := h
        subst hs
        subst hevs
        exact ⟨Nat.le_refl _, by simp⟩
    · cases h
  | vendorAdBreakDone p =>
    simp only [applyStep] at h
    split at h
    · rename_i heq
      simp only [Option.some.injEq, Prod.mk.injEq] at h
      obtain ⟨hs, hevs⟩ := h
      subst hs
      subst hevs
      constructor
      · unfold minPushTime
        rw [heq]
        dsimp only
        by_cases hc : 0 < REWARDED_LOOP_RETRY_TIMEOUT - (s.time - s.lastCallTime)
        · rw [if_pos hc]
          dsimp only
          omega
        · rw [if_neg hc]
          dsimp only
          omega
      · intro t ht
        simp only [List.mem_append, List.mem_singleton] at ht
        rcases ht with (ht | ht) | ht
        · split at ht <;> simp at ht
        · cases ht
        · split at ht <;> simp at ht
    · cases h
  | hostShowRewardedAd =>
    simp only [applyStep] at h
    split at h
    · simp only [Option.some.injEq, Prod.mk.injEq] at h
      obtain ⟨hs, hevs⟩ := h
      subst hs
      subst hevs
      exact ⟨Nat.le_refl _, by simp⟩
    · simp only [Option.some.injEq, Prod.mk.injEq] at h
      obtain ⟨hs, hevs⟩ := h
      subst hs
      subst hevs
      exact ⟨Nat.le_refl _, by simp⟩

theorem runSteps_pushTime {tr : List LoopStep} {s s' : RewardedLoopState} {evs : List LoopEvent}
    (h : runSteps s tr = some (s', evs)) :
    ∀ t, LoopEvent.adBreakPushed t ∈ evs → minPushTime s ≤ t := by
  induction tr generalizing s evs with
  | nil =>
    simp only [runSteps, Option.some.injEq, Prod.mk.injEq] at h
    obtain ⟨-, hevs⟩ := h
    subst hevs
    simp
  | cons e rest ih =>
    simp only [runSteps] at h
    cases ha : applyStep s e with
    | none => rw [ha] at h; cases h
    | some p =>
      obtain ⟨s1, evs1⟩ := p
      rw [ha] at h
      dsimp only at h
      cases hr : runSteps s1 rest with
      | none => rw [hr] at h; cases h
      | some q =>
        obtain ⟨s2, evs2⟩ := q
        rw [hr] at h
        dsimp only at h
        simp only [Option.some.injEq, Prod.mk.injEq] at h
        obtain ⟨hs, hevs⟩ := h
        subst hs
        subst hevs
        intro t ht
        rcases List.mem_append.mp ht with h1 | h2
        · exact (applyStep_pushTime ha).2 t h1
        · exact Nat.le_trans (applyStep_pushTime ha).1 (ih hr t h2)

theorem applyStep_noBeforeReward {s s' : RewardedLoopState} {e : LoopStep}
    {evs : List LoopEvent}
    (hfn : s.showRewardedAdFnSet = false) (hres : s.resolveRewardedAdFnSet = false)
    (hcan : s.canShowRewardedAd = false) (hne : e ≠ LoopStep.vendorBeforeReward)
    (h : applyStep s e = some (s', evs)) :
    s'.showRewardedAdFnSet = false ∧ s'.resolveRewardedAdFnSet = false ∧
      s'.canShowRewardedAd = false ∧
      ∀ r, LoopEvent.hostShowReturned r ∈ evs → r = softResult := by
  cases e with
  | tick dt =>
    simp only [applyStep, Option.some.injEq, Prod.mk.injEq] at h
    obtain ⟨hs, hevs⟩ := h
    subst hs
    subst hevs
    exact ⟨hfn, hres, hcan, by simp⟩
  | iterate =>
    simp only [applyStep] at h
    split at h
    · cases h
    · split at h
      · simp only [Option.some.injEq, Prod.mk.injEq] at h
        obtain ⟨hs, hevs⟩ := h
        subst hs
        subst hevs
        exact ⟨hfn, hres, hcan, by simp⟩
      · cases h
  | vendorBeforeReward => exact absurd rfl hne
  | vendorAdBreakDone p =>
    simp only [applyStep] at h
    split at h
    · simp only [Option.some.injEq, Prod.mk.injEq] at h
      obtain ⟨hs, hevs⟩ := h
      subst hs
      subst hevs
      refine ⟨rfl, rfl, rfl, ?_⟩
      intro r hr
      rw [hres] at hr
      simp at hr
    · cases h
  | hostShowRewardedAd =>
    simp only [applyStep] at h
    rw [hfn] at h
    simp only [Bool.false_eq_true, if_false, Option.some.injEq, Prod.mk.injEq] at h
    obtain ⟨hs, hevs⟩ := h
    subst hs
    subst hevs
    refine ⟨hfn, hres, hcan, ?_⟩
    intro r hr
    simp only [List.mem_singleton, LoopEvent.hostShowReturned.injEq] at hr
    subst hr
    rfl

theorem runSteps_noBeforeReward {tr : List LoopStep} {s s' : RewardedLoopState}
    {evs : List LoopEvent}
    (hfn : s.showRewardedAdFnSet = false) (hres : s.resolveRewardedAdFnSet = false)
    (hcan : s.canShowRewardedAd = false)
    (hnb : LoopStep.vendorBeforeReward ∉ tr)
    (h : runSteps s tr = some (s', evs)) :
    s'.showRewardedAdFnSet = false ∧ s'.resolveRewardedAdFnSet = false ∧
      s'.canShowRewardedAd = false ∧
      ∀ r, LoopEvent.hostShowReturned r ∈ evs → r = softResult := by
  induction tr generalizing s evs with
  | nil =>
    simp only [runSteps, Option.some.injEq, Prod.mk.injEq] at h
    obtain ⟨hs, hevs⟩ := h
    subst hs
    subst hevs
    exact ⟨hfn, hres, hcan, by simp⟩
  | cons e rest ih =>
    simp only [runSteps] at h
    cases ha : applyStep s e with
    | none => rw [ha] at h; cases h
    | some p =>
      obtain ⟨s1, evs1⟩ := p
      rw [ha] at h
      dsimp only at h
      cases hr : runSteps s1 rest with
      | none => rw [hr] at h; cases h
      | some q =>
        obtain ⟨s2, evs2⟩ := q
        rw [hr] at h
        dsimp only at h
        simp only [Option.some.injEq, Prod.mk.injEq] at h
        obtain ⟨hs, hevs⟩ := h
        subst hs
        subst hevs
        have hne : e ≠ LoopStep.vendorBeforeReward := fun heq => hnb (heq ▸ List.mem_cons_self e rest)
        obtain ⟨hfn1, hres1, hcan1, hevs1⟩ := applyStep_noBeforeReward hfn hres hcan hne ha
        have hnb1 : LoopStep.vendorBeforeReward ∉ rest := fun hm => hnb (List.mem_cons_of_mem e hm)
        obtain ⟨hfn2, hres2, hcan2, hevs2⟩ := ih hfn1 hres1 hcan1 hnb1 hr
        refine ⟨hfn2, hres2, hcan2, ?_⟩
        intro r hrr
        rcases List.mem_append.mp hrr with h1 | h2
        · exact hevs1 r h1
        · exact hevs2 r h2

/-- C1: for every `PlacementInfo`, `placementInfoToAdLadResult` returns
exactly the table mapping of spec section 4.2 ("viewed" gives
`{didShowAd := true, errorReason := null}`, "frequencyCapped" gives
"time-constraint", "dismissed" gives "user-dismissed", "notReady",
"timeout" and "noAdPreloaded" give "no-ad-available", every other status
gives "unknown"), and the inline translation of `showAdHelper` in the
earlier revision agrees with it pointwise. Both are total pure functions
(they are Lean functions over the whole enum), so they cover every
`breakStatus` value, have no side effects and never throw. -/
theorem c1_result_translator_table (p : PlacementInfo) :
    placementInfoToAdLadResult p = specResultTable p.breakStatus ∧
    showAdHelperResult p = placementInfoToAdLadResult p := by
  obtain ⟨bt, bn, bf, bs⟩ := p
  cases bs <;> exact ⟨rfl, rfl⟩

/-- C2 counterexample: the claimed invariant "`showRewardedAdFn` is
non-null if and only if `canTrigger` is true" fails at a reachable state.
Concretely, after the trace iterate, beforeReward, showRewardedAd, the
trigger has been invoked (so `setCanShowRewardedAd(false)` has run) but
`showRewardedAdFn` is still non-null: the code only nulls it when the
completion hook fires. -/
theorem c2_trigger_invariant_counterexample :
    ¬ (∀ s : RewardedLoopState, ReachableLoop s →
        (s.showRewardedAdFnSet = true ↔ s.canShowRewardedAd = true)) := by
  intro hall
  have hreach : ReachableLoop
      { time := 0, phase := LoopPhase.awaitingDone, lastCallTime := 0,
        showRewardedAdFnSet := true, resolveRewardedAdFnSet := true,
        canShowRewardedAd := false, showAdCallCount := 1 } :=
    ⟨[LoopStep.iterate, LoopStep.vendorBeforeReward, LoopStep.hostShowRewardedAd],
      [LoopEvent.adBreakPushed 0, LoopEvent.setCanShowRewardedAd true,
        LoopEvent.setCanShowRewardedAd false, LoopEvent.vendorShowAdCalled],
      rfl⟩
  exact absurd (hall _ hreach) (by decide)

/-- C2 (amended): at every state reachable by any interleaving of
reconciler-loop steps, vendor callbacks and `showRewardedAd` invocations,
`showRewardedAdFn` is non-null if and only if `canTrigger` is true or a
display-trigger invocation is awaiting its completion hook
(`resolveRewardedAdFn` is set). -/
theorem c2_trigger_invariant_amended {s : RewardedLoopState} (h : ReachableLoop s) :
    s.showRewardedAdFnSet = true ↔
      (s.canShowRewardedAd = true ∨ s.resolveRewardedAdFnSet = true) :=
  (reachableLoop_inv h).2.1

/-- C2 witness, at the reachable state right after the before-reward hook
has fired. -/
theorem c2_trigger_invariant_witness :
    offeredState.showRewardedAdFnSet = true ↔
      (offeredState.canShowRewardedAd = true ∨
        offeredState.resolveRewardedAdFnSet = true) :=
  c2_trigger_invariant_amended
    ⟨[LoopStep.iterate, LoopStep.vendorBeforeReward],
      [LoopEvent.adBreakPushed 0, LoopEvent.setCanShowRewardedAd true], rfl⟩

/-- C3: whenever the completion hook `adBreakDone` fires for an
outstanding Requesting attempt: if a display-trigger request is pending,
the event stream contains its resolution with this `PlacementInfo`; the
resolver is cleared; and unconditionally the trigger is cleared and
`canTrigger` set to false. Moreover, if the hook fires with
`breakStatus = "viewed"` while a display-trigger promise is pending, the
pending `showRewardedAd` call returns
`{didShowAd := true, errorReason := null}`. -/
theorem c3_completion_hook (s s' : RewardedLoopState) (p : PlacementInfo)
    (evs : List LoopEvent)
    (h : applyStep s (LoopStep.vendorAdBreakDone p) = some (s', evs)) :
    (s.resolveRewardedAdFnSet = true → LoopEvent.pendingResolvedWith p ∈ evs) ∧
    s'.resolveRewardedAdFnSet = false ∧
    s'.showRewardedAdFnSet = false ∧
    s'.canShowRewardedAd = false ∧
    (s.resolveRewardedAdFnSet = true → p.breakStatus = AdBreakStatus.viewed →
      LoopEvent.hostShowReturned { didShowAd := true, errorReason := none } ∈ evs) := by
  simp only [applyStep] at h
  split at h
  · simp only [Option.some.injEq, Prod.mk.injEq] at h
    obtain ⟨hs, hevs⟩ := h
    subst hs
    subst hevs
    refine ⟨?_, rfl, rfl, rfl, ?_⟩
    · intro hres
      simp [hres]
    · intro hres hviewed
      have htr : placementInfoToAdLadResult p =
          { didShowAd := true, errorReason := none } := by
        unfold placementInfoToAdLadResult
        rw [hviewed]
        simp
      simp [hres, htr]
  · cases h

/-- C3 witness: the hook fires with a viewed placement while a
display-trigger promise is pending. -/
theorem c3_completion_hook_witness :
    (pendingDoneState.resolveRewardedAdFnSet = true →
      LoopEvent.pendingResolvedWith viewedPlacement ∈ viewedDoneEvents) ∧
    pendingDoneStateAfter.resolveRewardedAdFnSet = false ∧
    pendingDoneStateAfter.showRewardedAdFnSet = false ∧
    pendingDoneStateAfter.canShowRewardedAd = false ∧
    (pendingDoneState.resolveRewardedAdFnSet = true →
      viewedPlacement.breakStatus = AdBreakStatus.viewed →
      LoopEvent.hostShowReturned { didShowAd := true, errorReason := none } ∈
        viewedDoneEvents) :=
  c3_completion_hook pendingDoneState pendingDoneStateAfter viewedPlacement
    viewedDoneEvents rfl

/-- C4 counterexample: the at-most-once part of the claim fails. After
the trace iterate, beforeReward, showRewardedAd, showRewardedAd, the
vendor show function has been called twice within the same Requesting
attempt: `showRewardedAdFn` is not cleared when the trigger is invoked,
and `showRewardedAd` guards on `showRewardedAdFn`, not on `canTrigger`,
so a second call re-enters the trigger closure. -/
theorem c4_single_use_counterexample :
    ¬ (∀ s : RewardedLoopState, ReachableLoop s → s.showAdCallCount ≤ 1) := by
  intro hall
  have hreach : ReachableLoop
      { time := 0, phase := LoopPhase.awaitingDone, lastCallTime := 0,
        showRewardedAdFnSet := true, resolveRewardedAdFnSet := true,
        canShowRewardedAd := false, showAdCallCount := 2 } :=
    ⟨[LoopStep.iterate, LoopStep.vendorBeforeReward, LoopStep.hostShowRewardedAd,
        LoopStep.hostShowRewardedAd],
      [LoopEvent.adBreakPushed 0, LoopEvent.setCanShowRewardedAd true,
        LoopEvent.setCanShowRewardedAd false, LoopEvent.vendorShowAdCalled,
        LoopEvent.setCanShowRewardedAd false, LoopEvent.vendorShowAdCalled],
      rfl⟩
  exact absurd (hall _ hreach) (by decide)

/-- C4 (amended): invoking the trigger sets `canTrigger` to false
synchronously, and strictly before the vendor-supplied show function is
called (the event order of the synchronous block is the
`setCanShowRewardedAd(false)` call followed by the `showAdFn()` call).
However the trigger function is not cleared by the invocation, so a later
`showRewardedAd` call during the same Requesting attempt (before the
completion hook fires) calls the vendor show function again: at most once
per offer is not enforced. -/
theorem c4_trigger_sync_flip (s s' : RewardedLoopState) (evs : List LoopEvent)
    (hfn : s.showRewardedAdFnSet = true)
    (h : applyStep s LoopStep.hostShowRewardedAd = some (s', evs)) :
    evs = [LoopEvent.setCanShowRewardedAd false, LoopEvent.vendorShowAdCalled] ∧
    s'.canShowRewardedAd = false ∧
    s'.showRewardedAdFnSet = true ∧
    s'.showAdCallCount = s.showAdCallCount + 1 ∧
    ∃ s2 evs2, applyStep s' LoopStep.hostShowRewardedAd = some (s2, evs2) ∧
      LoopEvent.vendorShowAdCalled ∈ evs2 ∧
      s2.showAdCallCount = s'.showAdCallCount + 1 := by
  simp only [applyStep] at h
  rw [hfn] at h
  simp only [if_true, Option.some.injEq, Prod.mk.injEq] at h
  obtain ⟨hs, hevs⟩ := h
  subst hs
  subst hevs
  refine ⟨rfl, rfl, rfl, rfl, ?_⟩
  refine ⟨_, _, rfl, ?_, rfl⟩
  simp

/-- C4 witness: one invocation of the trigger from the offered state. -/
theorem c4_trigger_sync_flip_witness :
    [LoopEvent.setCanShowRewardedAd false, LoopEvent.vendorShowAdCalled] =
      [LoopEvent.setCanShowRewardedAd false, LoopEvent.vendorShowAdCalled] ∧
    invokedState.canShowRewardedAd = false ∧
    invokedState.showRewardedAdFnSet = true ∧
    invokedState.showAdCallCount = offeredState.showAdCallCount + 1 ∧
    ∃ s2 evs2, applyStep invokedState LoopStep.hostShowRewardedAd = some (s2, evs2) ∧
      LoopEvent.vendorShowAdCalled ∈ evs2 ∧
      s2.showAdCallCount = invokedState.showAdCallCount + 1 :=
  c4_trigger_sync_flip offeredState invokedState
    [LoopEvent.setCanShowRewardedAd false, LoopEvent.vendorShowAdCalled] rfl rfl

/-- C5: a `showRewardedAd` call made while `showRewardedAdFn` is null
never throws and returns exactly
`{didShowAd := false, errorReason := "no-ad-available"}`, leaving the
state unchanged; and along any trace in which the before-reward hook
never fires, every `showRewardedAd` call returns that same result. -/
theorem c5_no_trigger_soft (s : RewardedLoopState)
    (hfn : s.showRewardedAdFnSet = false) :
    applyStep s LoopStep.hostShowRewardedAd =
      some (s, [LoopEvent.hostShowReturned softResult]) ∧
    ∀ tr s' evs, LoopStep.vendorBeforeReward ∉ tr →
      runSteps initialLoopState tr = some (s', evs) →
      ∀ r, LoopEvent.hostShowReturned r ∈ evs → r = softResult := by
  constructor
  · simp only [applyStep]
    rw [hfn]
    simp [softResult]
  · intro tr s' evs hnb hrun
    exact (runSteps_noBeforeReward rfl rfl rfl hnb hrun).2.2.2

/-- C5 witness: a call at the very start of the loop, and a trace with
one Requesting attempt and one `showRewardedAd` call and no before-reward
hook. -/
theorem c5_no_trigger_soft_witness :
    applyStep initialLoopState LoopStep.hostShowRewardedAd =
      some (initialLoopState, [LoopEvent.hostShowReturned softResult]) ∧
    softResult = softResult :=
  ⟨(c5_no_trigger_soft initialLoopState rfl).1,
    (c5_no_trigger_soft initialLoopState rfl).2
      [LoopStep.iterate, LoopStep.hostShowRewardedAd]
      { time := 0, phase := LoopPhase.awaitingDone, lastCallTime := 0,
        showRewardedAdFnSet := false, resolveRewardedAdFnSet := false,
        canShowRewardedAd := false, showAdCallCount := 0 }
      [LoopEvent.adBreakPushed 0, LoopEvent.hostShowReturned softResult]
      (by decide) rfl softResult (by decide)⟩

/-- C6: when the completion hook of an attempt started at `lastCallTime`
fires at the current time, then: if the elapsed time is below the 1000 ms
cooldown, the loop suspends until `lastCallTime + 1000` and no later
`adBreak` push along any continuation happens before that instant; if the
elapsed time is at least 1000 ms, the loop is ready at the current time
and the next iteration is enabled immediately. Moreover the loop never
pushes a new request while a previous attempt is still outstanding. -/
theorem c6_cooldown (s s' : RewardedLoopState) (p : PlacementInfo) (evs : List LoopEvent)
    (hmono : s.lastCallTime ≤ s.time)
    (h : applyStep s (LoopStep.vendorAdBreakDone p) = some (s', evs)) :
    (s.time - s.lastCallTime < REWARDED_LOOP_RETRY_TIMEOUT →
      s'.phase = LoopPhase.cooling (s.lastCallTime + REWARDED_LOOP_RETRY_TIMEOUT) ∧
      ∀ tr s2 evs2 t, runSteps s' tr = some (s2, evs2) →
        LoopEvent.adBreakPushed t ∈ evs2 →
        s.lastCallTime + REWARDED_LOOP_RETRY_TIMEOUT ≤ t) ∧
    (REWARDED_LOOP_RETRY_TIMEOUT ≤ s.time - s.lastCallTime →
      s'.phase = LoopPhase.cooling s.time ∧
      (applyStep s' LoopStep.iterate).isSome = true) ∧
    (∀ u : RewardedLoopState, u.phase = LoopPhase.awaitingDone →
      applyStep u LoopStep.iterate = none) := by
  simp only [applyStep] at h
  split at h
  · simp only [Option.some.injEq, Prod.mk.injEq] at h
    obtain ⟨hs, hevs⟩ := h
    subst hs
    subst hevs
    refine ⟨?_, ?_, ?_⟩
    · intro hlt
      have hpos : 0 < REWARDED_LOOP_RETRY_TIMEOUT - (s.time - s.lastCallTime) := by
        unfold REWARDED_LOOP_RETRY_TIMEOUT at hlt ⊢
        omega
      have harith : s.time + (REWARDED_LOOP_RETRY_TIMEOUT - (s.time - s.lastCallTime)) =
          s.lastCallTime + REWARDED_LOOP_RETRY_TIMEOUT := by
        unfold REWARDED_LOOP_RETRY_TIMEOUT at hlt ⊢
        omega
      have hphase : (if 0 < REWARDED_LOOP_RETRY_TIMEOUT - (s.time - s.lastCallTime) then
            LoopPhase.cooling
              (s.time + (REWARDED_LOOP_RETRY_TIMEOUT - (s.time - s.lastCallTime)))
          else LoopPhase.cooling s.time) =
          LoopPhase.cooling (s.lastCallTime + REWARDED_LOOP_RETRY_TIMEOUT) := by
        rw [if_pos hpos, harith]
      refine ⟨hphase, ?_⟩
      intro tr s2 evs2 t hrun hmem
      have hbound := runSteps_pushTime hrun t hmem
      refine le_trans ?_ hbound
      unfold minPushTime
      dsimp only
      rw [hphase]
      dsimp only
      exact le_max_right _ _
    · intro hge
      have hneg : ¬ (0 < REWARDED_LOOP_RETRY_TIMEOUT - (s.time - s.lastCallTime)) := by
        unfold REWARDED_LOOP_RETRY_TIMEOUT at hge ⊢
        omega
      have hphase : (if 0 < REWARDED_LOOP_RETRY_TIMEOUT - (s.time - s.lastCallTime) then
            LoopPhase.cooling
              (s.time + (REWARDED_LOOP_RETRY_TIMEOUT - (s.time - s.lastCallTime)))
          else LoopPhase.cooling s.time) = LoopPhase.cooling s.time := by
        rw [if_neg hneg]
      refine ⟨hphase, ?_⟩
      simp only [applyStep]
      rw [hphase]
      dsimp only
      rw [if_pos (Nat.le_refl s.time)]
      rfl
    · intro u hu
      simp only [applyStep]
      rw [hu]
  · cases h

/-- C6 witness: an attempt started at 0 whose hook fires at 300 ms cools
down until 1000 ms, and in the continuation that ticks to 1300 ms the
next push happens at 1300, not earlier; an attempt whose hook fires at
1500 ms is ready immediately; and an iterate step is disabled while a
request is outstanding. -/
theorem c6_cooldown_witness :
    bareRequestingStateAfter.phase =
      LoopPhase.cooling
        (bareRequestingState.lastCallTime + REWARDED_LOOP_RETRY_TIMEOUT) ∧
    bareRequestingState.lastCallTime + REWARDED_LOOP_RETRY_TIMEOUT ≤ 1300 ∧
    lateDoneStateAfter.phase = LoopPhase.cooling lateDoneState.time ∧
    (applyStep lateDoneStateAfter LoopStep.iterate).isSome = true ∧
    applyStep pendingDoneState LoopStep.iterate = none :=
  ⟨((c6_cooldown bareRequestingState bareRequestingStateAfter viewedPlacement
      [LoopEvent.setCanShowRewardedAd false] (by decide) rfl).1 (by decide)).1,
   ((c6_cooldown bareRequestingState bareRequestingStateAfter viewedPlacement
      [LoopEvent.setCanShowRewardedAd false] (by decide) rfl).1 (by decide)).2
      [LoopStep.tick 1000, LoopStep.iterate] nextIterState
      [LoopEvent.adBreakPushed 1300] 1300 rfl (by decide),
   ((c6_cooldown lateDoneState lateDoneStateAfter viewedPlacement
      [LoopEvent.setCanShowRewardedAd false] (by decide) rfl).2.1 (by decide)).1,
   ((c6_cooldown lateDoneState lateDoneStateAfter viewedPlacement
      [LoopEvent.setCanShowRewardedAd false] (by decide) rfl).2.1 (by decide)).2,
   (c6_cooldown lateDoneState lateDoneStateAfter viewedPlacement
      [LoopEvent.setCanShowRewardedAd false] (by decide) rfl).2.2
      pendingDoneState rfl⟩

/-- C7: calling `initialize` a second time on the same plugin instance
always fails with the "initialized more than once" error and produces no
side effects: the state is returned unchanged and the event list (which
records every host-context call, DOM append and vendor-queue push of the
synchronous prefix) is empty. This holds in both revisions of the module,
because the idempotency guard throws before any mutation. -/
theorem c7_double_init (publisherId : String) (hint : Option String) (useTest : Bool)
    (s : PluginState) (h : s.initializeCalled = true) :
    initializeSync publisherId hint useTest s =
      (some "Google Ad Placement plugin is being initialized more than once", s, []) ∧
    initializeSyncEarly publisherId hint s =
      (some "Google Ad Placement plugin is being initialized more than once", s, []) := by
  unfold initializeSync initializeSyncEarly
  rw [h]
  exact ⟨rfl, rfl⟩

/-- C7 witness: the state produced by a first successful `initialize` is
rejected by a second call, in both revisions. -/
theorem c7_double_init_witness :
    initializeSync "ca-pub-1" none false
        (initializeSync "ca-pub-1" none false freshPluginState).2.1 =
      (some "Google Ad Placement plugin is being initialized more than once",
        (initializeSync "ca-pub-1" none false freshPluginState).2.1, []) ∧
    initializeSyncEarly "ca-pub-1" none
        (initializeSync "ca-pub-1" none false freshPluginState).2.1 =
      (some "Google Ad Placement plugin is being initialized more than once",
        (initializeSync "ca-pub-1" none false freshPluginState).2.1, []) :=
  c7_double_init "ca-pub-1" none false
    (initializeSync "ca-pub-1" none false freshPluginState).2.1 rfl

/-- C8: every programming-misuse error is raised immediately as a throw
and is not converted into a soft result: with a null
`initializeContext`, `beforeAfter.beforeAd`, `beforeAfter.afterAd` and the
entry of `rewardedLoop` all throw "Plugin is not initialized" and perform
no host-context calls; and a repeated `initialize` throws its
idempotency-guard error with no side effects. -/
theorem c8_misuse_errors (s u : PluginState) (publisherId : String)
    (hint : Option String) (useTest : Bool)
    (hctx : s.initializeContextSet = false) (hcalled : u.initializeCalled = true) :
    beforeAd s = (some "Plugin is not initialized", []) ∧
    afterAd s = (some "Plugin is not initialized", []) ∧
    rewardedLoopEntry s = some "Plugin is not initialized" ∧
    (initializeSync publisherId hint useTest u).1 =
      some "Google Ad Placement plugin is being initialized more than once" ∧
    (initializeSync publisherId hint useTest u).2.2 = [] := by
  unfold beforeAd afterAd rewardedLoopEntry initializeSync
  rw [hctx, hcalled]
  exact ⟨rfl, rfl, rfl, rfl, rfl⟩

/-- C8 witness: a freshly constructed plugin (context not yet set) and an
already-initialized plugin. -/
theorem c8_misuse_errors_witness :
    beforeAd freshPluginState = (some "Plugin is not initialized", []) ∧
    afterAd freshPluginState = (some "Plugin is not initialized", []) ∧
    rewardedLoopEntry freshPluginState = some "Plugin is not initialized" ∧
    (initializeSync "ca-pub-1" none false
        (initializeSync "ca-pub-1" none false freshPluginState).2.1).1 =
      some "Google Ad Placement plugin is being initialized more than once" ∧
    (initializeSync "ca-pub-1" none false
        (initializeSync "ca-pub-1" none false freshPluginState).2.1).2.2 = [] :=
  c8_misuse_errors freshPluginState
    (initializeSync "ca-pub-1" none false freshPluginState).2.1
    "ca-pub-1" none false rfl rfl

/-- C9: on the first (successful) `initialize`, the synchronous prefix up
to the script-load suspension point performs exactly
`ctx.setCanShowRewardedAd(false)` and then the script append, in that
order — so the flag is set to false before the script element is appended
and before any suspension point. Furthermore along any reconciler trace
in which the before-reward hook has not yet fired (no offer published),
the flag remains false. -/
theorem c9_canshow_false_first (publisherId : String) (hint : Option String)
    (useTest : Bool) (s : PluginState) (h : s.initializeCalled = false) :
    initializeSync publisherId hint useTest s =
      (none, { initializeCalled := true, initializeContextSet := true },
        [HostEvent.setCanShowRewardedAd false,
         HostEvent.appendScriptToHead (buildScriptTag publisherId hint useTest)]) ∧
    ∀ tr s' evs, LoopStep.vendorBeforeReward ∉ tr →
      runSteps initialLoopState tr = some (s', evs) →
      s'.canShowRewardedAd = false := by
  constructor
  · unfold initializeSync
    rw [h]
    rfl
  · intro tr s' evs hnb hrun
    exact (runSteps_noBeforeReward rfl rfl rfl hnb hrun).2.2.1

/-- C9 witness: a concrete first initialization, and a trace with one
Requesting attempt and no before-reward hook. -/
theorem c9_canshow_false_first_witness :
    initializeSync "ca-pub-1" (some "30") true freshPluginState =
      (none, { initializeCalled := true, initializeContextSet := true },
        [HostEvent.setCanShowRewardedAd false,
         HostEvent.appendScriptToHead (buildScriptTag "ca-pub-1" (some "30") true)]) ∧
    ({ time := 0, phase := LoopPhase.awaitingDone, lastCallTime := 0,
        showRewardedAdFnSet := false, resolveRewardedAdFnSet := false,
        canShowRewardedAd := false, showAdCallCount := 0 } :
          RewardedLoopState).canShowRewardedAd = false :=
  ⟨(c9_canshow_false_first "ca-pub-1" (some "30") true freshPluginState rfl).1,
   (c9_canshow_false_first "ca-pub-1" (some "30") true freshPluginState rfl).2
     [LoopStep.iterate] _ [LoopEvent.adBreakPushed 0] (by decide) rfl⟩

/-- C10: at construction `window.adsbygoogle` is replaced by a fresh empty
array only when it is not already set, and an existing queue is preserved
unchanged; each `adBreak` and `adConfig` call appends exactly one element
at the end of the queue and leaves every existing element in place (the
plugin never reads, removes or reorders them): the result is the old
queue plus one trailing element. -/
theorem c10_queue_discipline :
    initAdsbygoogle none = [] ∧
    (∀ q, initAdsbygoogle (some q) = q) ∧
    (∀ q options, adBreak options q = q ++ [VendorQueueItem.adBreakItem options]) ∧
    (∀ q options, (adBreak options q).length = q.length + 1) ∧
    (∀ q options, (adBreak options q).take q.length = q) ∧
    (∀ q options, adConfig options q = q ++ [VendorQueueItem.adConfigItem options]) ∧
    (∀ q options, (adConfig options q).length = q.length + 1) ∧
    (∀ q options, (adConfig options q).take q.length = q) := by
  refine ⟨rfl, fun q => rfl, fun q o => rfl, ?_, ?_, fun q o => rfl, ?_, ?_⟩
  · intro q o
    simp [adBreak]
  · intro q o
    simp [adBreak]
  · intro q o
    simp [adConfig]
  · intro q o
    simp [adConfig]

end GoogleAdPlacement
